/-
Verification of the chat-canvas layout engine.

This file shallowly embeds the layout core of the chat-canvas UI:
  * `constants.js`                       — grid constants and derived cell counts
  * `utils/grid.js`                      — snapping and pixel/cell conversion
  * `utils/placement.js`                 — occupancy index and slot finders
  * `layout/resolveOverlaps.js`          — post-drag overlap resolver
  * `utils/thread.js` (`getRootIdOf`)    — root lookup by parent chain
  * the placement pass in `ChatCanvas.jsx` (useLayoutEffect)

JS numbers are modelled as ℚ (all operations used by the layout code —
addition, subtraction, multiplication, division by 2 and by the grid size,
`Math.floor`/`Math.ceil`/`Math.round`, `min`/`max`, comparisons — are exact
on float64 for the pixel magnitudes involved, so ℚ is a faithful model).
`Option` models nullable fields (`x`, `y`, `parentId`).
-/
import Mathlib

namespace ChatCanvasProofs

/-! ### JS numeric primitives

`Rat.floor` is used as the executable floor so that concrete instances
evaluate inside the kernel; bridging lemmas relate it to `Int.floor`. -/

/-- `Math.floor` on a JS number. -/
def jsFloor (q : ℚ) : ℤ := Rat.floor q

/-- `Math.ceil` on a JS number. -/
def jsCeil (q : ℚ) : ℤ := -Rat.floor (-q)

/-- `Math.round` on a JS number: `Math.round(x) = Math.floor(x + 0.5)`. -/
def jsRound (q : ℚ) : ℤ := jsFloor (q + 1/2)

/-! ### constants.js -/

def GRID : ℚ := 20
def GAP : ℚ := 64
def SIDE_GAP : ℚ := 128
def PADDING : ℚ := 28
def EDGE_PADDING : ℚ := 80
def MAX_SCAN : ℕ := 500
def MAX_RESOLVE_PASSES : ℕ := 8

def gapCells : ℤ := max 1 (jsRound (GAP / GRID))
def padCells : ℤ := max 1 (jsRound (PADDING / GRID))
def leftEdgeCol : ℤ := jsCeil (EDGE_PADDING / GRID)
def sideGapCells : ℤ := max 1 (jsRound (SIDE_GAP / GRID))

/-! ### utils/grid.js -/

def snap (n : ℚ) : ℚ := (jsRound (n / GRID) : ℚ) * GRID
def toCol (x : ℚ) : ℤ := jsFloor (x / GRID)
def toRow (y : ℚ) : ℤ := jsFloor (y / GRID)
def fromCol (c : ℤ) : ℚ := (c : ℚ) * GRID
def fromRow (r : ℤ) : ℚ := (r : ℚ) * GRID

/-- A coordinate is grid-aligned when it is an exact integer multiple of
the grid size. -/
def gridAligned (q : ℚ) : Prop := ∃ k : ℤ, q = (k : ℚ) * GRID

/-! ### Data model

A message, as created by `addMessage` in `ChatCanvas.jsx`.  `w`/`h` live in a
side table keyed by id (`bubbleSizes`), modelled as a lookup function. -/

structure Msg where
  id : String
  parentId : Option String := none
  threadId : Option String := none
  isThread : Bool := false
  senderId : String := ""
  text : String := ""
  timestamp : String := ""
  x : Option ℚ := none
  y : Option ℚ := none
deriving DecidableEq

/-- Pixel rectangle `{x, y, w, h}`. -/
structure Rect where
  x : ℚ
  y : ℚ
  w : ℚ
  h : ℚ
deriving DecidableEq

/-- Grid-cell rectangle `{id, col, row, spanX, spanY}` of the occupancy index. -/
structure GridRect where
  id : String := ""
  col : ℤ
  row : ℤ
  spanX : ℤ
  spanY : ℤ
deriving DecidableEq

/-- The `side` tag of a slot-finder result. -/
inductive Side where
  | left
  | right
  | below
deriving DecidableEq

/-- A slot-finder result `{x, y, side}`. -/
structure Slot where
  x : ℚ
  y : ℚ
  side : Side
deriving DecidableEq

/-- Bubble-size side table: id ↦ measured `{w, h}`, absent until measured. -/
def Sizes : Type := String → Option (ℚ × ℚ)

/-- JS truthiness of a nullable string (`null`/`undefined` and `""` are falsy). -/
def jsTruthyS : Option String → Bool
  | none => false
  | some s => !(s == "")

/-- `getRectFor` of `ChatCanvas.jsx` in its element-free branch:
`{ x: m.x ?? 0, y: m.y ?? 0, w: size?.w ?? 300, h: size?.h ?? 100 }`.
(When the message is placed — the only case the layout code relies on —
this agrees with the DOM branch, which also prefers `m.x`/`m.y`.) -/
def getRectFor (sizes : Sizes) (m : Msg) : Rect :=
  { x := m.x.getD 0
    y := m.y.getD 0
    w := ((sizes m.id).map Prod.fst).getD 300
    h := ((sizes m.id).map Prod.snd).getD 100 }

/-! ### utils/placement.js -/

/-- `rectsOverlap` (grid-cell axis-aligned box intersection). -/
def rectsOverlap (a b : GridRect) : Bool :=
  !(decide (a.col + a.spanX ≤ b.col) || decide (b.col + b.spanX ≤ a.col) ||
    decide (a.row + a.spanY ≤ b.row) || decide (b.row + b.spanY ≤ a.row))

/-- `getMsgGridRect`. -/
def getMsgGridRect (getRect : Msg → Rect) (m : Msg) : GridRect :=
  let r := getRect m
  { id := m.id
    col := max leftEdgeCol (toCol r.x - padCells)
    row := max leftEdgeCol (toRow r.y)
    spanX := max 1 (jsCeil ((r.w + PADDING) / GRID)) + padCells * 2
    spanY := max 1 (jsCeil ((r.h + PADDING) / GRID)) + padCells * 2 }

/-- `buildOccupancy`. -/
def buildOccupancy (msgs : List Msg) (getRect : Msg → Rect)
    (excludeIds : List String := []) : List GridRect :=
  (msgs.filter fun m =>
      m.x.isSome && m.y.isSome && !(excludeIds.contains m.id)).map
    (getMsgGridRect getRect)

/-- `isFreeRect`. -/
def isFreeRect (occRects : List GridRect) (col row spanX spanY : ℤ) : Bool :=
  if col < leftEdgeCol then false
  else
    let probe : GridRect :=
      { col := col - padCells, row := row
        spanX := spanX + padCells * 2, spanY := spanY + padCells * 2 }
    !(occRects.any fun r => rectsOverlap r probe)

/-- The body `tryOrder` of `findSideSlotOnRow`. -/
def trySideOrder (occRects : List GridRect) (row spanX spanY
    startRightCol startLeftCol : ℤ) (preferSide : Option Side) (r : ℤ) :
    Option Slot :=
  let right := startRightCol + r
  let left := startLeftCol - r
  let rightSlot : Slot :=
    { x := snap (fromCol right), y := snap (fromRow row), side := .right }
  let leftSlot : Slot :=
    { x := snap (fromCol left), y := snap (fromRow row), side := .left }
  match preferSide with
  | some .left =>
      if leftEdgeCol ≤ left ∧ isFreeRect occRects left row spanX spanY then
        some leftSlot
      else if isFreeRect occRects right row spanX spanY then some rightSlot
      else none
  | some .right =>
      if isFreeRect occRects right row spanX spanY then some rightSlot
      else if leftEdgeCol ≤ left ∧ isFreeRect occRects left row spanX spanY then
        some leftSlot
      else none
  | _ =>
      if isFreeRect occRects right row spanX spanY then some rightSlot
      else if leftEdgeCol ≤ left ∧ isFreeRect occRects left row spanX spanY then
        some leftSlot
      else none

/-- The scan loop of `findSideSlotOnRow` (`for r = 0; r <= MAX_WIDE; r++`). -/
def findSideSlotGo (occRects : List GridRect) (row spanX spanY
    startRightCol startLeftCol : ℤ) (preferSide : Option Side) :
    ℕ → ℤ → Option Slot
  | 0, _ => none
  | fuel + 1, r =>
      match trySideOrder occRects row spanX spanY startRightCol startLeftCol
          preferSide r with
      | some s => some s
      | none =>
          findSideSlotGo occRects row spanX spanY startRightCol startLeftCol
            preferSide fuel (r + 1)

/-- `findSideSlotOnRow`. -/
def findSideSlotOnRow (occRects : List GridRect) (parentRect : Rect)
    (w h : ℚ) (preferSide : Option Side := none) : Option Slot :=
  let spanX := max 1 (jsCeil ((w + PADDING) / GRID))
  let spanY := max 1 (jsCeil ((h + PADDING) / GRID))
  let row := toRow parentRect.y
  let parentLeftCol := toCol parentRect.x
  let parentRightCol := toCol (parentRect.x + parentRect.w)
  let startRightCol := parentRightCol + sideGapCells
  let startLeftCol := parentLeftCol - sideGapCells - spanX
  -- MAX_WIDE = max(MAX_SCAN, 200); the loop runs for r = 0 .. MAX_WIDE
  findSideSlotGo occRects row spanX spanY startRightCol startLeftCol preferSide
    (max MAX_SCAN 200 + 1) 0

/-- The scan loop of `findSlotBelow` (`for d = 0; d < maxSpread; d++`),
trying the right-shifted column before the left-shifted one. -/
def findSlotBelowGo (occRects : List GridRect) (row spanX spanY base : ℤ) :
    ℕ → ℤ → Option Slot
  | 0, _ => none
  | fuel + 1, d =>
      let leftCol := base - d
      let rightCol := base + d
      if leftEdgeCol ≤ rightCol ∧ isFreeRect occRects rightCol row spanX spanY then
        some { x := snap (fromCol rightCol), y := snap (fromRow row), side := .below }
      else if leftEdgeCol ≤ leftCol ∧ isFreeRect occRects leftCol row spanX spanY then
        some { x := snap (fromCol leftCol), y := snap (fromRow row), side := .below }
      else findSlotBelowGo occRects row spanX spanY base fuel (d + 1)

/-- `findSlotBelow`.  Always returns a slot: if the bounded scan finds no
free column it falls back to a position directly below the parent. -/
def findSlotBelow (occRects : List GridRect) (parentRect : Rect) (w h : ℚ) :
    Slot :=
  let spanX := max 1 (jsCeil ((w + PADDING) / GRID))
  let spanY := max 1 (jsCeil ((h + PADDING) / GRID))
  let row := toRow (parentRect.y + parentRect.h) + gapCells
  let parentCenterCol := toCol (parentRect.x + parentRect.w / 2)
  -- maxSpread = 500
  (findSlotBelowGo occRects row spanX spanY
      (parentCenterCol - spanX / 2) 500 0).getD
    { x := snap parentRect.x, y := snap (parentRect.y + GAP + parentRect.h)
      side := .below }

/-- The row-scan loop of `findSlotBelowAtCenter` / `findSlotBelowAtX`. -/
def findSlotDownGo (occRects : List GridRect) (startCol spanX spanY : ℤ) :
    ℕ → ℤ → Option Slot
  | 0, _ => none
  | fuel + 1, row =>
      if isFreeRect occRects startCol row spanX spanY then
        some { x := snap (fromCol startCol), y := snap (fromRow row), side := .below }
      else findSlotDownGo occRects startCol spanX spanY fuel (row + 1)

/-- `findSlotBelowAtCenter`: keep the x-center fixed at `targetCenterX`
and scan rows downward (MAX_DROP = 1000); fall back to `findSlotBelow`. -/
def findSlotBelowAtCenter (occRects : List GridRect) (targetCenterX : ℚ)
    (parentRect : Rect) (w h : ℚ) : Slot :=
  let spanX := max 1 (jsCeil ((w + PADDING) / GRID))
  let spanY := max 1 (jsCeil ((h + PADDING) / GRID))
  let row := toRow (parentRect.y + parentRect.h) + gapCells
  let startCol := max leftEdgeCol (toCol (targetCenterX - w / 2))
  (findSlotDownGo occRects startCol spanX spanY 1000 row).getD
    (findSlotBelow occRects parentRect w h)

/-- `findSlotBelowAtX`: keep the left edge fixed at `targetLeftX` and scan
rows downward (MAX_DROP = 1000); fall back to `findSlotBelow`. -/
def findSlotBelowAtX (occRects : List GridRect) (targetLeftX : ℚ)
    (parentRect : Rect) (w h : ℚ) : Slot :=
  let spanX := max 1 (jsCeil ((w + PADDING) / GRID))
  let spanY := max 1 (jsCeil ((h + PADDING) / GRID))
  let row := toRow (parentRect.y + parentRect.h) + gapCells
  let startCol := max leftEdgeCol (toCol targetLeftX)
  (findSlotDownGo occRects startCol spanX spanY 1000 row).getD
    (findSlotBelow occRects parentRect w h)

/-- `choosePlacement`. -/
def choosePlacement (msgs : List Msg) (getRect : Msg → Rect)
    (parentRect : Rect) (w h : ℚ) (excludeIds : List String := [])
    (preferSide : Option Side := none) : Slot :=
  let occ := buildOccupancy msgs getRect excludeIds
  (findSideSlotOnRow occ parentRect w h preferSide).getD
    (findSlotBelow occ parentRect w h)

/-! ### utils/thread.js — `getRootIdOf`

`getRootIdOf` builds `new Map(messages.map(x => [x.id, x]))` (later entries
win for duplicate keys) and walks `parentId` pointers with
`while (cur?.parentId) cur = idToMsg.get(cur.parentId)`, returning
`cur?.id ?? id`.  The unbounded JS loop is modelled with explicit fuel;
`getRootGo` returns `none` when the fuel runs out before the loop guard
turns false, so sufficient-fuel runs are recognizable. -/

/-- `Map.get` on `new Map(msgs.map(x => [x.id, x]))`: the last entry with a
given key wins. -/
def mapGet (msgs : List Msg) (i : String) : Option Msg :=
  msgs.reverse.find? fun m => m.id == i

/-- The loop guard `cur?.parentId` (truthy). -/
def rootLoopGuard : Option Msg → Bool
  | none => false
  | some c => jsTruthyS c.parentId

/-- One loop body step: `cur = idToMsg.get(cur.parentId)`. -/
def rootLoopStep (msgs : List Msg) : Option Msg → Option Msg
  | none => none
  | some c =>
      match c.parentId with
      | none => none
      | some p => mapGet msgs p

/-- The `while` loop of `getRootIdOf`, with fuel.  `some cur` means the
loop exited with final value `cur`; `none` means the fuel ran out. -/
def rootLoopGo (msgs : List Msg) : ℕ → Option Msg → Option (Option Msg)
  | 0, cur => if rootLoopGuard cur then none else some cur
  | fuel + 1, cur =>
      if rootLoopGuard cur then rootLoopGo msgs fuel (rootLoopStep msgs cur)
      else some cur

/-- `getRootIdOf`, with fuel for the parent-chain walk.  `cur?.id ?? id`. -/
def getRootIdOfF (msgs : List Msg) (i : String) (fuel : ℕ) : String :=
  match rootLoopGo msgs fuel (mapGet msgs i) with
  | some (some c) => c.id
  | some none => i
  | none => i

/-! ### layout/resolveOverlaps.js -/

/-- `overlapAmount`: positive parts of the axis overlaps of two rects. -/
def overlapAmount (getRect : Msg → Rect) (a b : Msg) : ℚ × ℚ :=
  let ar := getRect a
  let br := getRect b
  (max 0 (min (ar.x + ar.w) (br.x + br.w) - max ar.x br.x),
   max 0 (min (ar.y + ar.h) (br.y + br.h) - max ar.y br.y))

/-- `clampYNoBottom` from `ChatCanvas.jsx`:
`(y) => snap(Math.max(EDGE_PADDING, y))`. -/
def clampYNoBottom (y : ℚ) : ℚ := snap (max EDGE_PADDING y)

/-- The sibling row-tolerance test of the resolver:
`A.parentId && A.parentId === B.parentId && |Ar.y - Br.y| <= rowTol`
with `rowTol = max(GRID, floor(Ar.h / 2))`. -/
def isSiblingsTest (getRect : Msg → Rect) (A B : Msg) : Bool :=
  let Ar := getRect A
  let Br := getRect B
  let rowTol : ℚ := max GRID ((jsFloor (Ar.h / 2) : ℚ))
  jsTruthyS A.parentId && A.parentId == B.parentId &&
    decide (|Ar.y - Br.y| ≤ rowTol)

/-- The resolver's push-down decision:
`pushDown = oy >= ox || isMainA || isMainB`, overridden to `false` for
same-row siblings. -/
def pushDownDecision (getRect : Msg → Rect) (A B : Msg) : Bool :=
  let o := overlapAmount getRect A B
  let isMainA := !A.isThread
  let isMainB := !B.isThread
  let pushDown := decide (o.2 ≥ o.1) || isMainA || isMainB
  if isSiblingsTest getRect A B then false else pushDown

/-- The update applied to `B` for one truly-overlapping pair `(A, B)`:
`some nb` when `A` and `B` are both placed and their rects truly overlap,
`none` otherwise (no adjustment, `changed` untouched). -/
def resolvePair (getRect : Msg → Rect) (stageW : ℚ) (A B : Msg) :
    Option Msg :=
  if A.x.isNone || A.y.isNone || B.x.isNone || B.y.isNone then none
  else
    let o := overlapAmount getRect A B
    if 0 < o.1 ∧ 0 < o.2 then
      if pushDownDecision getRect A B then
        some { B with y := some (clampYNoBottom ((B.y.getD 0) + o.2 + PADDING)) }
      else
        let sizeB := getRect B
        let tryRight := snap ((B.x.getD 0) + o.1 + PADDING)
        let tryLeft := snap ((B.x.getD 0) - (o.1 + PADDING))
        let rightFits := decide (tryRight + sizeB.w + EDGE_PADDING ≤ stageW)
        let leftFits := decide (EDGE_PADDING ≤ tryLeft)
        let preferRight := decide ((A.x.getD 0) ≤ (B.x.getD 0))
        let finalX :=
          if preferRight && rightFits then tryRight
          else if leftFits then tryLeft
          else if rightFits then tryRight
          else tryLeft
        some { B with x := some finalX }
    else none

/-- The inner `for (j = i+1; ...)` loop of a resolver pass.  Mutation of
`updated[j]` is modelled with `List.set`; the fuel is initialized to the
list length, which bounds the number of iterations. -/
def resolveInner (getRect : Msg → Rect) (stageW : ℚ) (i : ℕ) :
    ℕ → ℕ → List Msg → Bool → List Msg × Bool
  | 0, _, l, changed => (l, changed)
  | fuel + 1, j, l, changed =>
      if j < l.length then
        match l[i]?, l[j]? with
        | some A, some B =>
            match resolvePair getRect stageW A B with
            | some nb => resolveInner getRect stageW i fuel (j + 1) (l.set j nb) true
            | none => resolveInner getRect stageW i fuel (j + 1) l changed
        | _, _ => resolveInner getRect stageW i fuel (j + 1) l changed
      else (l, changed)

/-- The outer `for (i = 0; ...)` loop of a resolver pass. -/
def resolveOuter (getRect : Msg → Rect) (stageW : ℚ) :
    ℕ → ℕ → List Msg → Bool → List Msg × Bool
  | 0, _, l, changed => (l, changed)
  | fuel + 1, i, l, changed =>
      if i < l.length then
        let p := resolveInner getRect stageW i l.length (i + 1) l changed
        resolveOuter getRect stageW fuel (i + 1) p.1 p.2
      else (l, changed)

/-- The `(y, x)`-ascending sort at the top of each pass
(`(a.y ?? 0) - (b.y ?? 0) || (a.x ?? 0) - (b.x ?? 0)`). -/
def sortByYX (l : List Msg) : List Msg :=
  l.mergeSort fun a b =>
    decide (a.y.getD 0 < b.y.getD 0) ||
      (a.y.getD 0 == b.y.getD 0 && decide (a.x.getD 0 ≤ b.x.getD 0))

/-- One full resolver pass: sort, then the pair loops. -/
def resolvePass (getRect : Msg → Rect) (stageW : ℚ) (l : List Msg) :
    List Msg × Bool :=
  let s := sortByYX l
  resolveOuter getRect stageW s.length 0 s false

/-- The bounded pass iteration (`for pass = 0; pass < MAX_RESOLVE_PASSES`),
breaking early when a pass reports no change. -/
def resolvePasses (getRect : Msg → Rect) (stageW : ℚ) :
    ℕ → List Msg → List Msg
  | 0, l => l
  | fuel + 1, l =>
      let p := resolvePass getRect stageW l
      if p.2 then resolvePasses getRect stageW fuel p.1 else p.1

/-- The final normalization map of `resolveOverlaps`: snap `x` (clamped to
the edge padding) and re-clamp `y` for every placed message.  (The
`ensureWidthForRect`/`ensureHeightForRect` stage-expansion callbacks are
deferred React state setters with no effect on the returned list.) -/
def normalizeMsg (m : Msg) : Msg :=
  if m.x.isNone || m.y.isNone then m
  else
    { m with
      x := some (snap (max (m.x.getD 0) EDGE_PADDING))
      y := some (clampYNoBottom (m.y.getD 0)) }

/-- `resolveOverlaps`. -/
def resolveOverlaps (getRect : Msg → Rect) (stageW : ℚ) (messages : List Msg) :
    List Msg :=
  (resolvePasses getRect stageW MAX_RESOLVE_PASSES messages).map normalizeMsg

/-! ### The placement pass (`useLayoutEffect` in `ChatCanvas.jsx`)

The pass reads `messagesRef.current` (the committed list, `orig` below),
works on a copied list `next`, and mutates `next[i]` in place.  The stage
size ref is constant during a pass (React commits `setStageSize` later),
so `stageW` is a plain parameter; `ensureWidthForRect` /
`ensureHeightForRect` are deferred state setters with no effect on the
pass-visible state and are not modelled.  The pinned-root-center map
(`rootCentersRef.current`) is mutated immediately and is threaded through
the state; so is the main-tail map. -/

/-- `Map.set` on a JS `Map` modelled as an association list. -/
def alSet {α : Type} (l : List (String × α)) (k : String) (v : α) :
    List (String × α) :=
  if l.any fun p => p.1 == k then
    l.map fun p => if p.1 == k then (k, v) else p
  else l ++ [(k, v)]

/-- `Map.get` on a JS `Map` modelled as an association list. -/
def alGet {α : Type} (l : List (String × α)) (k : String) : Option α :=
  (l.find? fun p => p.1 == k).map Prod.snd

/-- Working state of one placement pass. -/
structure PassState where
  next : List Msg
  changed : Bool
  rootCenters : List (String × ℚ)
  refTail : List (String × String)
  localTail : List (String × String)
deriving DecidableEq

/-- `getRectById` of `ChatCanvas.jsx`: first message with the id, or null. -/
def getRectById (sizes : Sizes) (orig : List Msg) (i : String) : Option Rect :=
  (orig.find? fun m => m.id == i).map (getRectFor sizes)

/-- The in-pass `getPlacedRectById` helper: prefer the working copy `next`
when the candidate there is placed, else fall back to `getRectById`. -/
def getPlacedRectById (sizes : Sizes) (orig next : List Msg) (i : String) :
    Option Rect :=
  match next.find? fun m => m.id == i with
  | some cand =>
      if cand.x.isSome && cand.y.isSome then
        let wh := (sizes i).getD (300, 100)
        some { x := cand.x.getD 0, y := cand.y.getD 0, w := wh.1, h := wh.2 }
      else getRectById sizes orig i
  | none => getRectById sizes orig i

/-- The in-pass `rectsOverlapPx` pixel-overlap checker. -/
def rectsOverlapPx (a b : Rect) : Bool :=
  !(decide (a.x + a.w ≤ b.x) || decide (b.x + b.w ≤ a.x) ||
    decide (a.y + a.h ≤ b.y) || decide (b.y + b.h ≤ a.y))

/-- The in-pass `buildPlacedRectsExcluding` helper (uses in-pass `next`
positions and measured sizes with `{w: 300, h: 100}` defaults). -/
def buildPlacedRectsExcluding (sizes : Sizes) (next : List Msg)
    (excludeId : String) : List Rect :=
  (next.filter fun m => !(m.id == excludeId) && m.x.isSome && m.y.isSome).map
    fun m =>
      let wh := (sizes m.id).getD (300, 100)
      { x := m.x.getD 0, y := m.y.getD 0, w := wh.1, h := wh.2 }

/-- One sweep of the `for (const r of placed)` loop inside `stackBelowAtX`:
the candidate's `y` is pushed below each rect it still overlaps. -/
def stackSweep (placed : List Rect) (x w h : ℚ) (y : ℚ) : ℚ × Bool :=
  placed.foldl
    (fun acc r =>
      if rectsOverlapPx { x := x, y := acc.1, w := w, h := h } r then
        (snap (r.y + r.h + GAP), true)
      else acc)
    (y, false)

/-- The `while (changed && guard++ < 200)` loop of `stackBelowAtX`. -/
def stackLoop (placed : List Rect) (x w h : ℚ) : ℕ → ℚ → ℚ
  | 0, y => y
  | fuel + 1, y =>
      let p := stackSweep placed x w h y
      if p.2 then stackLoop placed x w h fuel p.1 else p.1

/-- The in-pass `stackBelowAtX` helper: stack directly below the parent at
a fixed snapped x, pushing past every overlapping placed rect. -/
def stackBelowAtX (sizes : Sizes) (next : List Msg) (targetLeftX : ℚ)
    (parentRect : Rect) (w h : ℚ) (excludeId : String) : ℚ × ℚ :=
  let y0 := snap (parentRect.y + parentRect.h + GAP)
  let placed := buildPlacedRectsExcluding sizes next excludeId
  let x := snap targetLeftX
  (x, stackLoop placed x w h 200 y0)

/-- The thread branch of the pass for one unplaced child message
(`isThread` true): returns the computed position `pos`. -/
def placeThreadChild (sizes : Sizes) (orig : List Msg) (next : List Msg)
    (m : Msg) (pid : String) (pr : Rect) (w h : ℚ) : ℚ × ℚ :=
  let isUserMsg := m.senderId == "local-user"
  let parentMsg := orig.find? fun x => x.id == pid
  let parentIsThread := (parentMsg.map Msg.isThread).getD false
  if isUserMsg then
    if parentIsThread then
      stackBelowAtX sizes next pr.x pr w h m.id
    else
      let parentCenterX := pr.x + pr.w / 2
      let siblings := orig.filter fun s =>
        s.parentId == m.parentId && s.x.isSome && s.y.isSome && !(s.id == m.id)
      let counts := siblings.foldl
        (fun (acc : ℕ × ℕ) s =>
          let sr := getRectFor sizes s
          if sr.x + sr.w / 2 < parentCenterX then (acc.1 + 1, acc.2)
          else (acc.1, acc.2 + 1))
        (0, 0)
      let preferSide : Option Side :=
        if counts.1 ≤ counts.2 then some .left else some .right
      let pos := choosePlacement orig (getRectFor sizes) pr w h [m.id] preferSide
      if pos.side == Side.below then
        let occ := buildOccupancy orig (getRectFor sizes) [m.id]
        let sideGapPx := (sideGapCells : ℚ) * GRID
        let targetLeftX :=
          if preferSide == some Side.left then
            max EDGE_PADDING (pr.x - sideGapPx - w)
          else pr.x + pr.w + sideGapPx
        let s := findSlotBelowAtX occ targetLeftX pr w h
        (s.x, s.y)
      else (pos.x, pos.y)
  else
    stackBelowAtX sizes next pr.x pr w h m.id

/-- The coordinates computed by the root branch of the pass: the first
placed root is centered on the stage and pinned to the top edge padding,
later roots stack below the lowest currently-placed root (chosen by
`placedRoots.reduce((a, b) => getRectFor(a).y > getRectFor(b).y ? a : b)`),
still horizontally centered. -/
def placeRootXY (sizes : Sizes) (next : List Msg) (stageW : ℚ) (w : ℚ) :
    ℚ × ℚ :=
  let placedRoots := next.filter fun t =>
    !(jsTruthyS t.parentId) && t.x.isSome && t.y.isSome
  match placedRoots with
  | [] =>
      (snap ((jsRound ((stageW - w) / 2) : ℤ) : ℚ), snap EDGE_PADDING)
  | a :: rest =>
      let lowest := rest.foldl
        (fun acc b =>
          if (getRectFor sizes b).y < (getRectFor sizes acc).y then acc else b)
        a
      let lr := getRectFor sizes lowest
      (snap ((jsRound ((stageW - w) / 2) : ℤ) : ℚ),
       clampYNoBottom (lr.y + lr.h + GAP))

/-- Processing of one message of the pass (the loop body of the
`for (let i = 0; i < next.length; i++)` loop). -/
def processOne (sizes : Sizes) (orig : List Msg) (stageW : ℚ)
    (st : PassState) (i : ℕ) : PassState :=
  match st.next[i]? with
  | none => st
  | some m =>
      if m.x.isSome && m.y.isSome then st
      else
        match sizes m.id with
        | none => st
        | some wh =>
            let w := wh.1
            let h := wh.2
            if jsTruthyS m.parentId then
              let pid := m.parentId.getD ""
              match getPlacedRectById sizes orig st.next pid with
              | none => st
              | some pr =>
                  if (((orig.find? fun x => x.id == pid).bind Msg.x).isNone) then st
                  else
                    -- the fuel bounds the parent-chain walk of `getRootIdOf`
                    -- (a list of n messages has chains of at most n lookups
                    -- unless the pointers cycle, where the JS loop spins)
                    let rootId := getRootIdOfF orig pid (orig.length + 1)
                    if m.isThread then
                      let pos := placeThreadChild sizes orig st.next m pid pr w h
                      let m' := { m with
                        x := some pos.1, y := some (clampYNoBottom pos.2) }
                      { st with next := st.next.set i m', changed := true }
                    else
                      -- main chain: place under the pinned root center
                      let rcp : ℚ × List (String × ℚ) :=
                        match alGet st.rootCenters rootId with
                        | some c => (c, st.rootCenters)
                        | none =>
                            let c :=
                              match getRectById sizes orig rootId with
                              | some r => r.x + r.w / 2
                              | none => stageW / 2
                            (c, alSet st.rootCenters rootId c)
                      let occ := buildOccupancy orig (getRectFor sizes) [m.id]
                      let pos := findSlotBelowAtCenter occ rcp.1 pr w h
                      let m' := { m with
                        x := some pos.x, y := some (clampYNoBottom pos.y) }
                      { st with
                        next := st.next.set i m'
                        changed := true
                        rootCenters := rcp.2
                        localTail := alSet st.localTail rootId m.id }
            else
              -- root message
              let xy := placeRootXY sizes st.next stageW w
              let m' := { m with x := some xy.1, y := some xy.2 }
              let rootCenter := xy.1 + w / 2
              { st with
                next := st.next.set i m'
                changed := true
                rootCenters := alSet st.rootCenters m.id rootCenter
                refTail := alSet st.refTail m.id m.id }

/-- The pass loop over indices. -/
def passGo (sizes : Sizes) (orig : List Msg) (stageW : ℚ) :
    ℕ → ℕ → PassState → PassState
  | 0, _, st => st
  | fuel + 1, i, st =>
      if i < st.next.length then
        passGo sizes orig stageW fuel (i + 1) (processOne sizes orig stageW st i)
      else st

/-- The whole placement pass: iterate over a working copy of the committed
list, then commit `next` and the local main-tail map only when something
changed. -/
def placementPass (sizes : Sizes) (orig : List Msg) (stageW : ℚ)
    (rootCenters : List (String × ℚ)) (mainTail : List (String × String)) :
    PassState :=
  let st0 : PassState :=
    { next := orig, changed := false, rootCenters := rootCenters
      refTail := mainTail, localTail := mainTail }
  let st := passGo sizes orig stageW orig.length 0 st0
  -- `if (changed) setMessages(next)` / `if (changed) ref = localMainTail`
  if st.changed then { st with refTail := st.localTail } else { st with next := orig }

/-! ### Specification-side definitions

These re-state parts of the specification in its own words, to be compared
with the definitions translated from the source. -/

/-- `findSlotBelow` as the specification describes it: the first free
column among the candidates at distances `d = 0 .. 499` outward from the
centered start column (right-shifted before left-shifted at each
distance, columns left of the reserved edge never eligible), on the row
just below the parent; when none is free, the fallback position
`(snap(parent.x), snap(parent.y + parent.h + GAP))`. -/
def findSlotBelowSpec (occRects : List GridRect) (parentRect : Rect)
    (w h : ℚ) : Slot :=
  let spanX := max 1 (jsCeil ((w + PADDING) / GRID))
  let spanY := max 1 (jsCeil ((h + PADDING) / GRID))
  let row := toRow (parentRect.y + parentRect.h) + gapCells
  let base := toCol (parentRect.x + parentRect.w / 2) - spanX / 2
  let cands := (List.range 500).flatMap fun d => [base + (d : ℤ), base - (d : ℤ)]
  ((cands.find? fun c =>
      decide (leftEdgeCol ≤ c) && isFreeRect occRects c row spanX spanY).map
    fun c => { x := snap (fromCol c), y := snap (fromRow row), side := .below }).getD
    { x := snap parentRect.x, y := snap (parentRect.y + parentRect.h + GAP)
      side := .below }

/-- The push-down rule exactly as the claim states it: push down when the
vertical overlap is at least the horizontal overlap or either message is a
main-chain message, except that two messages sharing the same non-null
`parentId` whose tops differ by at most `max(GRID, half of A's height)` are
resolved sideways instead. -/
def claimPushDown (getRect : Msg → Rect) (A B : Msg) : Bool :=
  let o := overlapAmount getRect A B
  let baseRule := decide (o.2 ≥ o.1) || !A.isThread || !B.isThread
  let sameParent := A.parentId.isSome && A.parentId == B.parentId
  let tol : ℚ := max GRID ((getRect A).h / 2)
  let siblingOverride :=
    sameParent && decide (|(getRect A).y - (getRect B).y| ≤ tol)
  baseRule && !siblingOverride

/-- The occupancy rectangle the claim describes: the converted rect
(`toCol x`/`toRow y` with spans from the padding-expanded pixel size)
further padded by `padCells` in each of the four directions. -/
def claimedOccupancyRect (getRect : Msg → Rect) (m : Msg) : GridRect :=
  let r := getRect m
  { id := m.id
    col := toCol r.x - padCells
    row := toRow r.y - padCells
    spanX := max 1 (jsCeil ((r.w + PADDING) / GRID)) + padCells * 2
    spanY := max 1 (jsCeil ((r.h + PADDING) / GRID)) + padCells * 2 }

/-! ### Frame predicates -/

/-- All fields other than the coordinates agree. -/
def frameEq (m m' : Msg) : Prop :=
  m'.id = m.id ∧ m'.parentId = m.parentId ∧ m'.threadId = m.threadId ∧
    m'.isThread = m.isThread ∧ m'.senderId = m.senderId ∧
    m'.text = m.text ∧ m'.timestamp = m.timestamp

/-- `m'` is a coordinates-only modification of `m`; unplaced messages are
untouched. -/
def coordMod (m m' : Msg) : Prop :=
  frameEq m m' ∧ ((m.x = none ∨ m.y = none) → m' = m)

/-- Every placed coordinate of the message is grid-aligned. -/
def placedAligned (m : Msg) : Prop :=
  m.x.isSome ∧ m.y.isSome → gridAligned (m.x.getD 0) ∧ gridAligned (m.y.getD 0)

/-! ### Concrete fixtures for counterexamples and witnesses -/

/-- Sizes for the pinned-center scenario: root 310×100, child 300×100. -/
def sz1 : Sizes := fun i =>
  if i = "r" then some (310, 100) else if i = "c" then some (300, 100) else none

/-- A placed root at `(260, 80)`; with width 310 its pinned center is 415. -/
def root1 : Msg := { id := "r", x := some 260, y := some 80 }

/-- An unplaced main-chain child of `root1`. -/
def child1 : Msg := { id := "c", parentId := some "r" }

def msgs1 : List Msg := [root1, child1]

/-- Sizes for the resolver scenarios: A 300×200, B 100×50. -/
def sz2 : Sizes := fun i =>
  if i = "a" then some (300, 200) else if i = "b" then some (100, 50) else none

/-- A placed main-chain message with rect `(80, 80, 300, 200)`. -/
def msgA2 : Msg := { id := "a", x := some 80, y := some 80 }

/-- A placed thread message with rect `(100, 100, 100, 50)` — vertically
contained inside `msgA2`'s rect. -/
def msgB2 : Msg := { id := "b", x := some 100, y := some 100, isThread := true }

/-- Sizes for the push-down witness: A 300×200, B 100×300. -/
def sz2w : Sizes := fun i =>
  if i = "a" then some (300, 200) else if i = "b" then some (100, 300) else none

/-- B for the push-down witness: rect `(100, 100, 100, 300)`, bottom edge
below A's. -/
def msgB2w : Msg := { id := "b", x := some 100, y := some 100, isThread := true }

/-- Sizes for the occupancy scenario: one message 300×100. -/
def sz3 : Sizes := fun i => if i = "m" then some (300, 100) else none

/-- A placed message at `(200, 200)`. -/
def msg3 : Msg := { id := "m", x := some 200, y := some 200 }

/-- Sizes for the root-stacking scenario: R1 300×105, R2 290×80. -/
def sz4 : Sizes := fun i =>
  if i = "r1" then some (300, 105) else if i = "r2" then some (290, 80) else none

/-- First root, placed centered on a 1000-wide stage: `(360, 80)`. -/
def r1fix : Msg := { id := "r1", x := some 360, y := some 80 }

/-- Second root, not yet placed. -/
def r2fix : Msg := { id := "r2" }

/-- Sizes for the alignment counterexample. -/
def sz8 : Sizes := fun i =>
  if i = "odd" then some (300, 100) else if i = "new" then some (300, 100) else none

/-- A placed message with an off-grid x (as mid-drag coordinates are). -/
def odd8 : Msg := { id := "odd", x := some 37, y := some 80 }

/-- An unplaced root, so that the pass commits a new list. -/
def new8 : Msg := { id := "new" }

/-- A three-message parent chain `chainC → chainB → chainA`. -/
def chainA : Msg := { id := "a" }

def chainB : Msg := { id := "b", parentId := some "a" }

def chainC : Msg := { id := "c", parentId := some "b" }

def chainL : List Msg := [chainA, chainB, chainC]

/-- Messages for the resolver frame witness: one placed pair plus one
unplaced message. -/
def msgU9 : Msg := { id := "u", parentId := some "a", text := "t" }

def msgs9 : List Msg := [msgA2, msgB2, msgU9]

/-- The parent rectangle used in slot-finder witnesses. -/
def pr1 : Rect := { x := 260, y := 80, w := 310, h := 100 }

/-- Invariant carried through the resolver loops: every element of the
working list is a coordinates-only modification of some input message, the
id multiset is that of the input, and unplaced input messages are still in
the working list (untouched, by `coordMod`). -/
def ResolveInv (msgs l : List Msg) : Prop :=
  (∀ m' ∈ l, ∃ m ∈ msgs, coordMod m m') ∧
  (l.map Msg.id).Perm (msgs.map Msg.id) ∧
  (∀ m ∈ msgs, (m.x = none ∨ m.y = none) → m ∈ l)

/-! ## Theorems -/

theorem jsFloor_eq (q : ℚ) : jsFloor q = ⌊q⌋ := by
  rw [jsFloor, Rat.floor_def, Rat.floor_def']

theorem jsCeil_eq (q : ℚ) : jsCeil q = ⌈q⌉ := by
  rw [jsCeil, show Rat.floor (-q) = ⌊-q⌋ from by rw [Rat.floor_def, Rat.floor_def'],
    Int.floor_neg, neg_neg]

theorem jsRound_eq (q : ℚ) : jsRound q = ⌊q + 1/2⌋ := by
  rw [jsRound, jsFloor_eq]

theorem gridAligned_snap (q : ℚ) : gridAligned (snap q) := ⟨jsRound (q / GRID), rfl⟩

theorem gridAligned_fromCol (c : ℤ) : gridAligned (fromCol c) := ⟨c, rfl⟩

theorem gridAligned_clampY (y : ℚ) : gridAligned (clampYNoBottom y) :=
  gridAligned_snap _

theorem snap_intMul (k : ℤ) : snap ((k : ℚ) * GRID) = (k : ℚ) * GRID := by
  have h : ((k : ℚ) * GRID) / GRID = (k : ℚ) := by norm_num [GRID]
  rw [snap, h, jsRound_eq, Int.floor_int_add]
  norm_num

theorem snap_fromCol (c : ℤ) : snap (fromCol c) = fromCol c := snap_intMul c

/-- `snap` moves a value by strictly less than half a grid unit down. -/
theorem snap_gt (n : ℚ) : n - GRID / 2 < snap n := by
  have h := Int.sub_one_lt_floor (n / GRID + 1/2)
  rw [snap, jsRound_eq]
  simp only [GRID] at h ⊢
  linarith

/-- `snap` moves a value by at most half a grid unit up. -/
theorem snap_le (n : ℚ) : snap n ≤ n + GRID / 2 := by
  have h := Int.floor_le (n / GRID + 1/2)
  rw [snap, jsRound_eq]
  simp only [GRID] at h ⊢
  linarith

theorem toCol_fromCol (c : ℤ) : toCol (fromCol c) = c := by
  have h : ((c : ℚ) * GRID) / GRID = (c : ℚ) := by norm_num [GRID]
  rw [toCol, fromCol, h, jsFloor_eq, Int.floor_intCast]

/-! ### C3 — occupancy rectangles -/

/-- C3, counterexample: the claim says the occupied grid footprint extends
`padCells` beyond the converted rect in each of the four directions, in
particular above (`row = toRow y - padCells`).  The code never shifts the
top row up: for the placed message `msg3` at `(200, 200)` the produced
rectangle starts at row `toRow 200 = 10`, not row `9`, so it is not the
all-four-sides-padded rectangle. -/
theorem c3_counterexample :
    buildOccupancy [msg3] (getRectFor sz3) [] =
      [getMsgGridRect (getRectFor sz3) msg3] ∧
    (getMsgGridRect (getRectFor sz3) msg3).row = 10 ∧
    (claimedOccupancyRect (getRectFor sz3) msg3).row = 9 ∧
    getMsgGridRect (getRectFor sz3) msg3 ≠
      claimedOccupancyRect (getRectFor sz3) msg3 := by
  with_unfolding_all decide

/-- C3, amended: every rectangle produced by `buildOccupancy` belongs to a
placed, non-excluded message and equals `getMsgGridRect` of it; away from
the left/top clamps its horizontal footprint extends exactly `padCells`
cells beyond the converted rect on the left and on the right, while its
vertical footprint starts exactly at the converted top row (no padding
above) and extends `2 * padCells` cells beyond below. -/
theorem c3_occupancy_footprint (msgs : List Msg) (getRect : Msg → Rect)
    (excl : List String) (r : GridRect)
    (hr : r ∈ buildOccupancy msgs getRect excl) :
    ∃ m ∈ msgs, m.x.isSome ∧ m.y.isSome ∧ excl.contains m.id = false ∧
      r = getMsgGridRect getRect m ∧
      (leftEdgeCol ≤ toCol (getRect m).x - padCells →
        r.col = toCol (getRect m).x - padCells ∧
        r.col + r.spanX = toCol (getRect m).x +
          max 1 (jsCeil (((getRect m).w + PADDING) / GRID)) + padCells) ∧
      (leftEdgeCol ≤ toRow (getRect m).y →
        r.row = toRow (getRect m).y ∧
        r.row + r.spanY = toRow (getRect m).y +
          max 1 (jsCeil (((getRect m).h + PADDING) / GRID)) + padCells * 2) := by
  unfold buildOccupancy at hr
  obtain ⟨m, hm, hfm⟩ := List.mem_map.1 hr
  obtain ⟨hmem, hp⟩ := List.mem_filter.1 hm
  simp only [Bool.and_eq_true, Bool.not_eq_true'] at hp
  refine ⟨m, hmem, hp.1.1, hp.1.2, hp.2, hfm.symm, ?_, ?_⟩
  · intro hcol
    subst hfm
    simp only [getMsgGridRect]
    refine ⟨max_eq_right hcol, ?_⟩
    rw [max_eq_right hcol]
    ring
  · intro hrow
    subst hfm
    simp only [getMsgGridRect]
    refine ⟨max_eq_right hrow, ?_⟩
    rw [max_eq_right hrow]
    ring

/-- C3, witness: the amended theorem applied to the concrete occupancy of
`msg3`. -/
theorem c3_witness :
    ∃ m ∈ [msg3], m.x.isSome ∧ m.y.isSome ∧
      ([] : List String).contains m.id = false ∧
      getMsgGridRect (getRectFor sz3) msg3 = getMsgGridRect (getRectFor sz3) m ∧
      (leftEdgeCol ≤ toCol ((getRectFor sz3) m).x - padCells →
        (getMsgGridRect (getRectFor sz3) msg3).col =
          toCol ((getRectFor sz3) m).x - padCells ∧
        (getMsgGridRect (getRectFor sz3) msg3).col +
            (getMsgGridRect (getRectFor sz3) msg3).spanX =
          toCol ((getRectFor sz3) m).x +
            max 1 (jsCeil ((((getRectFor sz3) m).w + PADDING) / GRID)) + padCells) ∧
      (leftEdgeCol ≤ toRow ((getRectFor sz3) m).y →
        (getMsgGridRect (getRectFor sz3) msg3).row = toRow ((getRectFor sz3) m).y ∧
        (getMsgGridRect (getRectFor sz3) msg3).row +
            (getMsgGridRect (getRectFor sz3) msg3).spanY =
          toRow ((getRectFor sz3) m).y +
            max 1 (jsCeil ((((getRectFor sz3) m).h + PADDING) / GRID)) +
            padCells * 2) :=
  c3_occupancy_footprint [msg3] (getRectFor sz3) []
    (getMsgGridRect (getRectFor sz3) msg3) (by with_unfolding_all decide)

/-! ### C2 — the push-down target position -/

/-- C2, counterexample: for the pair `(msgA2, msgB2)` — truly overlapping,
resolved by pushing down, with the rect of B vertically contained inside
the rect of A — the resolver moves B to `y = 180`
(`clampYNoBottom(B.y + oy + PADDING)` with `oy` ending at the bottom edge
of B), not to `y = 300 = clampYNoBottom(A.y + A.h + PADDING)` as the claim
requires for contained pairs. -/
theorem c2_counterexample :
    pushDownDecision (getRectFor sz2) msgA2 msgB2 = true ∧
    0 < (overlapAmount (getRectFor sz2) msgA2 msgB2).1 ∧
    0 < (overlapAmount (getRectFor sz2) msgA2 msgB2).2 ∧
    resolvePair (getRectFor sz2) 2000 msgA2 msgB2 =
      some { msgB2 with y := some 180 } ∧
    clampYNoBottom
        ((getRectFor sz2 msgA2).y + (getRectFor sz2 msgA2).h + PADDING) = 300 ∧
    (180 : ℚ) ≠ 300 := by
  with_unfolding_all decide

/-- C2, amended: when the pair is resolved by pushing down and the bottom
edge of B is not above the bottom edge of A (B not vertically contained in
A), the new `y` of B is exactly `clampYNoBottom(A.y + A.h + PADDING)` —
the bottom edge of A plus the fixed padding, clamped to the top edge
padding and grid-snapped. -/
theorem c2_pushdown_target (getRect : Msg → Rect) (stageW : ℚ) (A B : Msg)
    (hxA : A.x.isSome) (hyA : A.y.isSome) (hxB : B.x.isSome) (hyB : B.y.isSome)
    (hBy : (getRect B).y = B.y.getD 0)
    (hyy : (getRect A).y ≤ (getRect B).y)
    (hbb : (getRect A).y + (getRect A).h ≤ (getRect B).y + (getRect B).h)
    (hox : 0 < (overlapAmount getRect A B).1)
    (hoy : 0 < (overlapAmount getRect A B).2)
    (hpd : pushDownDecision getRect A B = true) :
    resolvePair getRect stageW A B =
      some { B with
        y := some (clampYNoBottom ((getRect A).y + (getRect A).h + PADDING)) } := by
  have hyval : (overlapAmount getRect A B).2 =
      (getRect A).y + (getRect A).h - (getRect B).y := by
    have hmin : min ((getRect A).y + (getRect A).h)
        ((getRect B).y + (getRect B).h) = (getRect A).y + (getRect A).h :=
      min_eq_left hbb
    have hmax : max (getRect A).y (getRect B).y = (getRect B).y :=
      max_eq_right hyy
    have hpos : 0 < (getRect A).y + (getRect A).h - (getRect B).y := by
      have := hoy
      unfold overlapAmount at this
      simp only [hmin, hmax] at this
      rcases lt_max_iff.1 this with h0 | h0
      · exact absurd h0 (lt_irrefl 0)
      · exact h0
    unfold overlapAmount
    simp only [hmin, hmax]
    exact max_eq_right hpos.le
  unfold resolvePair
  have hnx : A.x.isNone = false := by
    cases hA : A.x
    · rw [hA] at hxA; cases hxA
    · rfl
  have hny : A.y.isNone = false := by
    cases hA : A.y
    · rw [hA] at hyA; cases hyA
    · rfl
  have hnxB : B.x.isNone = false := by
    cases hB : B.x
    · rw [hB] at hxB; cases hxB
    · rfl
  have hnyB : B.y.isNone = false := by
    cases hB : B.y
    · rw [hB] at hyB; cases hyB
    · rfl
  simp only [hnx, hny, hnxB, hnyB, Bool.or_false, Bool.false_or,
    Bool.or_self, if_false, Bool.false_eq_true]
  rw [if_pos ⟨hox, hoy⟩, if_pos hpd, hyval]
  have : B.y.getD 0 + ((getRect A).y + (getRect A).h - (getRect B).y) + PADDING
      = (getRect A).y + (getRect A).h + PADDING := by
    rw [← hBy]
    ring
  rw [this]

/-- C2, witness: the amended theorem at the concrete pair
`(msgA2, msgB2w)` whose bottom edges are not inverted. -/
theorem c2_witness :
    resolvePair (getRectFor sz2w) 2000 msgA2 msgB2w =
      some { msgB2w with
        y := some (clampYNoBottom
          ((getRectFor sz2w msgA2).y + (getRectFor sz2w msgA2).h + PADDING)) } :=
  c2_pushdown_target (getRectFor sz2w) 2000 msgA2 msgB2w
    (by with_unfolding_all decide) (by with_unfolding_all decide)
    (by with_unfolding_all decide) (by with_unfolding_all decide)
    (by with_unfolding_all decide) (by with_unfolding_all decide)
    (by with_unfolding_all decide) (by with_unfolding_all decide)
    (by with_unfolding_all decide) (by with_unfolding_all decide)

/-! ### C5 — the push-down decision rule -/

/-- C5: the resolver decides to push down exactly as the claim describes —
vertical overlap at least horizontal, or either message main-chain, except
that same-parent messages within the row tolerance are moved sideways —
provided the parent id is not the empty string (JS truthiness) and the
rect tops and height are whole pixels (so the claim's `h / 2` tolerance
coincides with the code's `Math.floor(h / 2)`). -/
theorem c5_pushdown_rule (getRect : Msg → Rect) (A B : Msg)
    (yA yB hA : ℤ)
    (hay : (getRect A).y = (yA : ℚ)) (hby : (getRect B).y = (yB : ℚ))
    (hah : (getRect A).h = (hA : ℚ))
    (hpe : A.parentId ≠ some "") :
    pushDownDecision getRect A B = claimPushDown getRect A B := by
  have htruthy : jsTruthyS A.parentId = A.parentId.isSome := by
    cases hp : A.parentId with
    | none => rfl
    | some s =>
        have hs : s ≠ "" := fun h => hpe (by rw [hp, h])
        simp [jsTruthyS, hs]
  have habs : |(yA : ℚ) - (yB : ℚ)| = ((|yA - yB| : ℤ) : ℚ) := by
    push_cast
    ring
  have htol : (|(getRect A).y - (getRect B).y| ≤
      max GRID ((jsFloor ((getRect A).h / 2) : ℚ))) ↔
      (|(getRect A).y - (getRect B).y| ≤ max GRID ((getRect A).h / 2)) := by
    rw [hay, hby, hah, jsFloor_eq, habs]
    constructor
    · intro h
      rcases le_max_iff.1 h with h1 | h1
      · exact le_max_iff.2 (Or.inl h1)
      · refine le_max_iff.2 (Or.inr ?_)
        have h2 : |yA - yB| ≤ ⌊(hA : ℚ) / 2⌋ := by exact_mod_cast h1
        exact le_trans (by exact_mod_cast h2) (Int.floor_le _)
    · intro h
      rcases le_max_iff.1 h with h1 | h1
      · exact le_max_iff.2 (Or.inl h1)
      · refine le_max_iff.2 (Or.inr ?_)
        have h2 : |yA - yB| ≤ ⌊(hA : ℚ) / 2⌋ := Int.le_floor.2 h1
        exact_mod_cast h2
  have hdec : (decide (|(getRect A).y - (getRect B).y| ≤
      max GRID ((jsFloor ((getRect A).h / 2) : ℚ))) : Bool) =
      decide (|(getRect A).y - (getRect B).y| ≤ max GRID ((getRect A).h / 2)) := by
    rw [decide_eq_decide]
    exact htol
  simp only [pushDownDecision, claimPushDown, isSiblingsTest, htruthy, hdec]
  cases hsib : (A.parentId.isSome && A.parentId == B.parentId &&
      decide (|(getRect A).y - (getRect B).y| ≤ max GRID ((getRect A).h / 2))) <;>
    simp [hsib]

/-- C5, witness: the decision rule coincidence at the concrete overlapping
pair `(msgA2, msgB2)`. -/
theorem c5_witness :
    pushDownDecision (getRectFor sz2) msgA2 msgB2 =
      claimPushDown (getRectFor sz2) msgA2 msgB2 :=
  c5_pushdown_rule (getRectFor sz2) msgA2 msgB2 80 100 200
    (by with_unfolding_all decide) (by with_unfolding_all decide)
    (by with_unfolding_all decide) (by with_unfolding_all decide)

/-! ### C10 — `getRootIdOf` -/

/-- Once the loop of `getRootIdOf` has exited within `k` steps, any larger
fuel gives the same final loop value. -/
theorem rootLoopGo_mono (msgs : List Msg) :
    ∀ (k : ℕ) (c r : Option Msg), rootLoopGo msgs k c = some r →
      ∀ f, k ≤ f → rootLoopGo msgs f c = some r := by
  intro k
  induction k with
  | zero =>
      intro c r hk f _
      rw [rootLoopGo] at hk
      by_cases hg : rootLoopGuard c = true
      · rw [if_pos hg] at hk
        cases hk
      · rw [if_neg hg] at hk
        cases f with
        | zero => rw [rootLoopGo, if_neg hg]; exact hk
        | succ f => rw [rootLoopGo, if_neg hg]; exact hk
  | succ k ih =>
      intro c r hk f hf
      rw [rootLoopGo] at hk
      by_cases hg : rootLoopGuard c = true
      · rw [if_pos hg] at hk
        cases f with
        | zero => omega
        | succ f =>
            rw [rootLoopGo, if_pos hg]
            exact ih _ _ hk f (by omega)
      · rw [if_neg hg] at hk
        cases f with
        | zero => rw [rootLoopGo, if_neg hg]; exact hk
        | succ f => rw [rootLoopGo, if_neg hg]; exact hk

/-- The final loop value is reached by iterating the loop body from the
start value, and satisfies the negated loop guard. -/
theorem rootLoopGo_iterate (msgs : List Msg) :
    ∀ (k : ℕ) (c r : Option Msg), rootLoopGo msgs k c = some r →
      ∃ j ≤ k, r = (rootLoopStep msgs)^[j] c ∧ rootLoopGuard r = false := by
  intro k
  induction k with
  | zero =>
      intro c r hk
      rw [rootLoopGo] at hk
      by_cases hg : rootLoopGuard c = true
      · rw [if_pos hg] at hk
        cases hk
      · rw [if_neg hg] at hk
        cases hk
        exact ⟨0, le_refl 0, rfl, Bool.not_eq_true _ ▸ hg⟩
  | succ k ih =>
      intro c r hk
      rw [rootLoopGo] at hk
      by_cases hg : rootLoopGuard c = true
      · rw [if_pos hg] at hk
        obtain ⟨j, hj, hr, hguard⟩ := ih _ _ hk
        exact ⟨j + 1, by omega, by rw [Function.iterate_succ_apply]; exact hr, hguard⟩
      · rw [if_neg hg] at hk
        cases hk
        exact ⟨0, by omega, rfl, Bool.not_eq_true _ ▸ hg⟩

/-- C10: for a start id whose parent chain reaches, within `k` lookups,
either a message with an untruthy `parentId` or a missing map entry (the
hypothesis the acyclicity condition of the claim supplies), `getRootIdOf`
terminates — every fuel of at least `k` exits the loop with the same final
value `r` — and its result is the id of the last message reached by
following `parentId` pointers (`r = some c` gives `c.id`), falling back to
the given id when the chain breaks on a missing entry (`r = none`). -/
theorem c10_getRootIdOf (msgs : List Msg) (i : String) (k : ℕ)
    (r : Option Msg)
    (hk : rootLoopGo msgs k (mapGet msgs i) = some r) :
    (∀ f, k ≤ f → rootLoopGo msgs f (mapGet msgs i) = some r) ∧
    (∃ j ≤ k, r = (rootLoopStep msgs)^[j] (mapGet msgs i) ∧
      rootLoopGuard r = false) ∧
    (∀ f, k ≤ f → getRootIdOfF msgs i f = (r.map Msg.id).getD i) := by
  refine ⟨rootLoopGo_mono msgs k _ r hk, rootLoopGo_iterate msgs k _ r hk, ?_⟩
  intro f hf
  rw [getRootIdOfF, rootLoopGo_mono msgs k _ r hk f hf]
  cases r with
  | none => rfl
  | some c => rfl

/-- C10, witness: the chain `chainC → chainB → chainA` exits the loop in
two steps, and `getRootIdOf` returns the root id `"a"` for every
sufficient fuel. -/
theorem c10_witness :
    (∀ f, 2 ≤ f → rootLoopGo chainL f (mapGet chainL "c") = some (some chainA)) ∧
    (∃ j ≤ 2, (some chainA : Option Msg) =
      (rootLoopStep chainL)^[j] (mapGet chainL "c") ∧
      rootLoopGuard (some chainA) = false) ∧
    (∀ f, 2 ≤ f → getRootIdOfF chainL "c" f =
      ((some chainA : Option Msg).map Msg.id).getD "c") :=
  c10_getRootIdOf chainL "c" 2 (some chainA) (by with_unfolding_all decide)

/-! ### C1 — the pinned main-chain column -/

/-- Every success of the downward row scan carries the fixed start column
as its x. -/
theorem findSlotDownGo_x (occ : List GridRect) (c sx sy : ℤ) :
    ∀ (fuel : ℕ) (row : ℤ) (s : Slot),
      findSlotDownGo occ c sx sy fuel row = some s →
      s.x = snap (fromCol c) := by
  intro fuel
  induction fuel with
  | zero => intro row s h; cases h
  | succ fuel ih =>
      intro row s h
      rw [findSlotDownGo] at h
      by_cases hfree : isFreeRect occ c row sx sy = true
      · rw [if_pos hfree] at h
        cases h
        rfl
      · rw [if_neg hfree] at h
        exact ih _ _ h

/-- The downward row scan succeeds as soon as some row within the fuel is
free. -/
theorem findSlotDownGo_isSome (occ : List GridRect) (c sx sy : ℤ) :
    ∀ (fuel : ℕ) (row : ℤ),
      (∃ n < fuel, isFreeRect occ c (row + n) sx sy = true) →
      (findSlotDownGo occ c sx sy fuel row).isSome := by
  intro fuel
  induction fuel with
  | zero =>
      intro row h
      obtain ⟨n, hn, _⟩ := h
      omega
  | succ fuel ih =>
      intro row h
      rw [findSlotDownGo]
      by_cases hfree : isFreeRect occ c row sx sy = true
      · rw [if_pos hfree]
        rfl
      · rw [if_neg hfree]
        obtain ⟨n, hn, hfn⟩ := h
        cases n with
        | zero => simp at hfn; exact absurd hfn hfree
        | succ n =>
            refine ih (row + 1) ⟨n, by omega, ?_⟩
            have : row + 1 + (n : ℤ) = row + ((n : ℕ) + 1 : ℕ) := by push_cast; ring
            rw [this]
            exact hfn

/-- C1, counterexample: the root `"r"` has pinned center 415; its
main-chain child `"c"` (width 300) is placed by the pass at `x = 260`
because the slot finder floors `415 - 150 = 265` to grid column 13 — so
`x + w/2 = 410 ≠ 415` even though the placement succeeded without any
fallback. -/
theorem c1_counterexample :
    alGet [("r", (415 : ℚ))] "r" = some 415 ∧
    (placementPass sz1 msgs1 1000 [("r", 415)] []).changed = true ∧
    (placementPass sz1 msgs1 1000 [("r", 415)] []).next =
      [root1, { child1 with x := some 260, y := some 260 }] ∧
    ((260 : ℚ) + 300 / 2 ≠ 415) := by
  with_unfolding_all decide

/-- C1, amended: whenever the bounded downward scan of
`findSlotBelowAtCenter` finds a free row (no fallback), the placed x is
exactly `fromCol (max leftEdgeCol (toCol (C - w/2)))` — a value that does
not depend on the occupancy at all, so the main-chain column is stable
regardless of how many thread branches exist; and `x + w/2 = C` holds
exactly when `C - w/2` lies on the grid at or right of the reserved left
edge. -/
theorem c1_center_column (occ : List GridRect) (C : ℚ) (pr : Rect) (w h : ℚ)
    (hfree : ∃ n : ℕ, n < 1000 ∧
      isFreeRect occ (max leftEdgeCol (toCol (C - w / 2)))
        (toRow (pr.y + pr.h) + gapCells + (n : ℤ))
        (max 1 (jsCeil ((w + PADDING) / GRID)))
        (max 1 (jsCeil ((h + PADDING) / GRID))) = true) :
    (findSlotBelowAtCenter occ C pr w h).x =
      fromCol (max leftEdgeCol (toCol (C - w / 2))) ∧
    (∀ k : ℤ, C - w / 2 = fromCol k → leftEdgeCol ≤ k →
      (findSlotBelowAtCenter occ C pr w h).x + w / 2 = C) := by
  have hs := findSlotDownGo_isSome occ (max leftEdgeCol (toCol (C - w / 2)))
    (max 1 (jsCeil ((w + PADDING) / GRID))) (max 1 (jsCeil ((h + PADDING) / GRID)))
    1000 (toRow (pr.y + pr.h) + gapCells) hfree
  have hx : (findSlotBelowAtCenter occ C pr w h).x =
      snap (fromCol (max leftEdgeCol (toCol (C - w / 2)))) := by
    unfold findSlotBelowAtCenter
    cases hgo : findSlotDownGo occ (max leftEdgeCol (toCol (C - w / 2)))
        (max 1 (jsCeil ((w + PADDING) / GRID)))
        (max 1 (jsCeil ((h + PADDING) / GRID))) 1000
        (toRow (pr.y + pr.h) + gapCells) with
    | none => rw [hgo] at hs; cases hs
    | some s =>
        simp only [hgo, Option.getD_some, Option.getD_none]
        exact findSlotDownGo_x occ _ _ _ 1000 _ s hgo
  rw [hx, snap_fromCol]
  refine ⟨rfl, ?_⟩
  intro k hk hkge
  rw [hk, toCol_fromCol, max_eq_right hkge, ← hk]
  ring

/-- C1, witness: with empty occupancy, pinned center 415 and a 300-wide
bubble, the scan succeeds immediately and the amended characterization
holds. -/
theorem c1_witness :
    (findSlotBelowAtCenter [] 415 pr1 300 100).x =
      fromCol (max leftEdgeCol (toCol ((415 : ℚ) - 300 / 2))) ∧
    (∀ k : ℤ, (415 : ℚ) - 300 / 2 = fromCol k → leftEdgeCol ≤ k →
      (findSlotBelowAtCenter [] 415 pr1 300 100).x + 300 / 2 = 415) :=
  c1_center_column [] 415 pr1 300 100
    ⟨0, by norm_num, by with_unfolding_all decide⟩

/-! ### C4 — root stacking -/

/-- C4, counterexample: with `r1fix` placed at `(360, 80)` (size 300×105)
on a 1000-wide stage, the second root `r2fix` (width 290) is placed at
`(360, 240)`: its `y` is below `R1.y + R1.h + GAP = 249` (snap rounded
down), and the two centers `360 + 150 = 510` and `360 + 145 = 505`
differ — so neither conjunct of the claim holds. -/
theorem c4_counterexample :
    (placementPass sz4 [r1fix, r2fix] 1000 [] []).next =
      [r1fix, { r2fix with x := some 360, y := some 240 }] ∧
    getRectFor sz4 r1fix = { x := 360, y := 80, w := 300, h := 105 } ∧
    ¬ (((80 : ℚ) + 105 + 64 ≤ 240) ∧
       ((360 : ℚ) + 300 / 2 = 360 + 290 / 2)) := by
  with_unfolding_all decide

/-- C4, amended: when `R1` is the lowest currently-placed root (the one
the `reduce` over the placed roots selects), the next root gets
`x = snap(round((stageW - w2) / 2))` and
`y = clampYNoBottom(R1.y + R1.h + GAP)`; that `y` can fall short of
`R1.y + R1.h + GAP` by up to half a grid unit (but no more), and the new
center sits within `GRID/2 + 1/2` of the stage center (so two roots
placed this way share a center only up to rounding, exactly when their
snapped-and-rounded offsets agree). -/
theorem c4_root_stacking (sizes : Sizes) (next : List Msg) (stageW w2 : ℚ)
    (R1 a : Msg) (rest : List Msg)
    (h1 : next.filter (fun t =>
      !(jsTruthyS t.parentId) && t.x.isSome && t.y.isSome) = a :: rest)
    (hlow : rest.foldl
      (fun acc b =>
        if (getRectFor sizes b).y < (getRectFor sizes acc).y then acc else b)
      a = R1) :
    placeRootXY sizes next stageW w2 =
      (snap ((jsRound ((stageW - w2) / 2) : ℤ) : ℚ),
       clampYNoBottom ((getRectFor sizes R1).y + (getRectFor sizes R1).h + GAP)) ∧
    (getRectFor sizes R1).y + (getRectFor sizes R1).h + GAP - GRID / 2 <
      (placeRootXY sizes next stageW w2).2 ∧
    |(placeRootXY sizes next stageW w2).1 + w2 / 2 - stageW / 2| ≤
      GRID / 2 + 1 / 2 := by
  have hxy : placeRootXY sizes next stageW w2 =
      (snap ((jsRound ((stageW - w2) / 2) : ℤ) : ℚ),
       clampYNoBottom ((getRectFor sizes R1).y + (getRectFor sizes R1).h + GAP)) := by
    unfold placeRootXY
    rw [h1]
    simp only [hlow]
  refine ⟨hxy, ?_, ?_⟩
  · rw [hxy]
    set v := (getRectFor sizes R1).y + (getRectFor sizes R1).h + GAP with hv
    have h2 : v ≤ max EDGE_PADDING v := le_max_right _ _
    have h3 := snap_gt (max EDGE_PADDING v)
    rw [clampYNoBottom]
    linarith
  · rw [hxy]
    set v := (stageW - w2) / 2 with hv
    set r := jsRound v with hr
    have hrv : v - 1 / 2 < (r : ℚ) ∧ (r : ℚ) ≤ v + 1 / 2 := by
      rw [hr, jsRound_eq]
      constructor
      · have := Int.sub_one_lt_floor (v + 1 / 2)
        push_cast at this ⊢
        linarith
      · have := Int.floor_le (v + 1 / 2)
        push_cast at this ⊢
        linarith
    have hsr1 := snap_gt ((r : ℚ))
    have hsr2 := snap_le ((r : ℚ))
    have hcenter : snap ((r : ℚ)) + w2 / 2 - stageW / 2 = snap ((r : ℚ)) - v := by
      rw [hv]
      ring
    rw [hcenter, abs_le]
    constructor
    · linarith [hrv.1]
    · linarith [hrv.2]

/-- C4, witness: the amended theorem at the concrete fixture — one placed
root `r1fix` (rect `(360, 80, 300, 105)`), stage width 1000, new width
290. -/
theorem c4_witness :
    placeRootXY sz4 [r1fix] 1000 290 =
      (snap ((jsRound (((1000 : ℚ) - 290) / 2) : ℤ) : ℚ),
       clampYNoBottom ((getRectFor sz4 r1fix).y + (getRectFor sz4 r1fix).h + GAP)) ∧
    (getRectFor sz4 r1fix).y + (getRectFor sz4 r1fix).h + GAP - GRID / 2 <
      (placeRootXY sz4 [r1fix] 1000 290).2 ∧
    |(placeRootXY sz4 [r1fix] 1000 290).1 + 290 / 2 - 1000 / 2| ≤
      GRID / 2 + 1 / 2 :=
  c4_root_stacking sz4 [r1fix] 1000 290 r1fix r1fix []
    (by with_unfolding_all decide) (by with_unfolding_all decide)

/-! ### C7 — idempotence of a settled layout -/

theorem mem_of_idx {α : Type} {l : List α} {i : ℕ} {a : α}
    (h : l[i]? = some a) : a ∈ l :=
  List.mem_iff_getElem?.2 ⟨i, h⟩

/-- A fully placed message is skipped by the pass body. -/
theorem processOne_skip (sizes : Sizes) (orig : List Msg) (stageW : ℚ)
    (st : PassState) (i : ℕ)
    (h : ∀ m ∈ st.next, m.x.isSome ∧ m.y.isSome) :
    processOne sizes orig stageW st i = st := by
  unfold processOne
  cases hm : st.next[i]? with
  | none => rfl
  | some m =>
      have hx := h m (mem_of_idx hm)
      simp [hx.1, hx.2]

/-- The pass loop changes nothing on a fully placed working list. -/
theorem passGo_skip (sizes : Sizes) (orig : List Msg) (stageW : ℚ) :
    ∀ (fuel i : ℕ) (st : PassState),
      (∀ m ∈ st.next, m.x.isSome ∧ m.y.isSome) →
      passGo sizes orig stageW fuel i st = st := by
  intro fuel
  induction fuel with
  | zero => intro i st _; rfl
  | succ fuel ih =>
      intro i st h
      rw [passGo]
      by_cases hc : i < st.next.length
      · rw [if_pos hc, processOne_skip sizes orig stageW st i h]
        exact ih (i + 1) st h
      · rw [if_neg hc]

/-- C7: on a message list in which every message is placed (x and y
non-null), the placement pass changes no coordinates and reports no
change — the returned working list is the input list, `changed` is
`false`, and the pinned-center and main-tail tables are untouched (so
nothing is committed). -/
theorem c7_settled_idempotent (sizes : Sizes) (orig : List Msg) (stageW : ℚ)
    (rc : List (String × ℚ)) (mt : List (String × String))
    (h : ∀ m ∈ orig, m.x.isSome ∧ m.y.isSome) :
    placementPass sizes orig stageW rc mt =
      { next := orig, changed := false, rootCenters := rc
        refTail := mt, localTail := mt } := by
  have hst := passGo_skip sizes orig stageW orig.length 0
    { next := orig, changed := false, rootCenters := rc
      refTail := mt, localTail := mt } h
  simp only [placementPass, hst]
  rfl

/-- C7, witness: the pass at a concrete fully placed two-message list. -/
theorem c7_witness :
    placementPass sz2 [msgA2, msgB2] 2000 [] [] =
      { next := [msgA2, msgB2], changed := false, rootCenters := []
        refTail := [], localTail := [] } :=
  c7_settled_idempotent sz2 [msgA2, msgB2] 2000 [] []
    (by with_unfolding_all decide)

/-! ### C6 — `findSlotBelow` -/

/-- The bounded scan of `findSlotBelow` returns the first free candidate
in the order it probes them: at each distance, right-shifted column before
left-shifted column. -/
theorem findSlotBelowGo_eq_find (occ : List GridRect) (row sx sy base : ℤ) :
    ∀ (k j : ℕ),
      findSlotBelowGo occ row sx sy base k ((j : ℕ) : ℤ) =
        (((List.range' j k).flatMap fun n =>
            [base + (n : ℤ), base - (n : ℤ)]).find?
          (fun c => decide (leftEdgeCol ≤ c) && isFreeRect occ c row sx sy)).map
          fun c => { x := snap (fromCol c), y := snap (fromRow row)
                     side := Side.below } := by
  intro k
  induction k with
  | zero => intro j; rfl
  | succ k ih =>
      intro j
      rw [List.range'_succ, List.flatMap_cons, findSlotBelowGo]
      have hlist : ([base + (j : ℤ), base - (j : ℤ)] ++
          (List.range' (j + 1) k).flatMap fun n =>
            [base + (n : ℤ), base - (n : ℤ)]) =
          (base + (j : ℤ)) :: (base - (j : ℤ)) ::
            ((List.range' (j + 1) k).flatMap fun n =>
              [base + (n : ℤ), base - (n : ℤ)]) := by
        simp
      rw [hlist]
      cases hb1 : (decide (leftEdgeCol ≤ base + (j : ℤ)) &&
          isFreeRect occ (base + (j : ℤ)) row sx sy) with
      | true =>
          have h1 : leftEdgeCol ≤ base + (j : ℤ) ∧
              isFreeRect occ (base + (j : ℤ)) row sx sy = true := by
            simpa using hb1
          rw [if_pos h1]
          simp only [List.find?_cons, hb1]
          rfl
      | false =>
          have h1 : ¬ (leftEdgeCol ≤ base + (j : ℤ) ∧
              isFreeRect occ (base + (j : ℤ)) row sx sy = true) := by
            intro hcon
            simp [hcon.1, hcon.2] at hb1
          rw [if_neg h1]
          cases hb2 : (decide (leftEdgeCol ≤ base - (j : ℤ)) &&
              isFreeRect occ (base - (j : ℤ)) row sx sy) with
          | true =>
              have h2 : leftEdgeCol ≤ base - (j : ℤ) ∧
                  isFreeRect occ (base - (j : ℤ)) row sx sy = true := by
                simpa using hb2
              rw [if_pos h2]
              simp only [List.find?_cons, hb1, hb2]
              rfl
          | false =>
              have h2 : ¬ (leftEdgeCol ≤ base - (j : ℤ) ∧
                  isFreeRect occ (base - (j : ℤ)) row sx sy = true) := by
                intro hcon
                simp [hcon.1, hcon.2] at hb2
              rw [if_neg h2]
              simp only [List.find?_cons, hb1, hb2]
              have hcast : ((j : ℤ) + 1) = ((j + 1 : ℕ) : ℤ) := by
                push_cast
                ring
              rw [hcast]
              exact ih (j + 1)

set_option maxHeartbeats 1600000 in
/-- C6: `findSlotBelow` always returns a slot, and it is exactly the one
the specification describes — the first free column among distances
`d = 0 .. 499` outward (right-shifted before left-shifted at each `d`) on
the row just below the parent, and otherwise the deterministic fallback
`(snap(parent.x), snap(parent.y + parent.h + GAP))` with no occupancy
guarantee. -/
theorem c6_findSlotBelow (occ : List GridRect) (pr : Rect) (w h : ℚ) :
    findSlotBelow occ pr w h = findSlotBelowSpec occ pr w h := by
  simp only [findSlotBelow, findSlotBelowSpec]
  have h0 := findSlotBelowGo_eq_find occ (toRow (pr.y + pr.h) + gapCells)
    (max 1 (jsCeil ((w + PADDING) / GRID))) (max 1 (jsCeil ((h + PADDING) / GRID)))
    (toCol (pr.x + pr.w / 2) - max 1 (jsCeil ((w + PADDING) / GRID)) / 2) 500 0
  rw [Nat.cast_zero] at h0
  rw [h0, List.range_eq_range']
  have hy : pr.y + GAP + pr.h = pr.y + pr.h + GAP := by ring
  rw [hy]

/-! ### C8 — grid alignment -/

theorem trySideOrder_x_aligned (occ : List GridRect)
    (row sx sy sr sl : ℤ) (ps : Option Side) (r : ℤ) (s : Slot)
    (h : trySideOrder occ row sx sy sr sl ps r = some s) :
    gridAligned s.x := by
  simp only [trySideOrder] at h
  split at h <;> split at h <;>
    first
      | (cases h; exact gridAligned_snap _)
      | (split at h <;> first
          | (cases h; exact gridAligned_snap _)
          | cases h)

theorem findSideSlotGo_x_aligned (occ : List GridRect)
    (row sx sy sr sl : ℤ) (ps : Option Side) :
    ∀ (fuel : ℕ) (r : ℤ) (s : Slot),
      findSideSlotGo occ row sx sy sr sl ps fuel r = some s →
      gridAligned s.x := by
  intro fuel
  induction fuel with
  | zero => intro r s h; cases h
  | succ fuel ih =>
      intro r s h
      rw [findSideSlotGo] at h
      cases ht : trySideOrder occ row sx sy sr sl ps r with
      | some s0 =>
          rw [ht] at h
          cases h
          exact trySideOrder_x_aligned occ row sx sy sr sl ps r _ ht
      | none =>
          rw [ht] at h
          exact ih (r + 1) s h

theorem findSideSlotOnRow_x_aligned (occ : List GridRect) (pr : Rect)
    (w h : ℚ) (ps : Option Side) (s : Slot)
    (hs : findSideSlotOnRow occ pr w h ps = some s) : gridAligned s.x := by
  unfold findSideSlotOnRow at hs
  exact findSideSlotGo_x_aligned occ _ _ _ _ _ ps _ 0 s hs

theorem findSlotBelowGo_x_aligned (occ : List GridRect) (row sx sy base : ℤ) :
    ∀ (fuel : ℕ) (d : ℤ) (s : Slot),
      findSlotBelowGo occ row sx sy base fuel d = some s → gridAligned s.x := by
  intro fuel
  induction fuel with
  | zero => intro d s h; cases h
  | succ fuel ih =>
      intro d s h
      simp only [findSlotBelowGo] at h
      split at h
      · cases h
        exact gridAligned_snap _
      · split at h
        · cases h
          exact gridAligned_snap _
        · exact ih (d + 1) s h

theorem findSlotBelow_x_aligned (occ : List GridRect) (pr : Rect) (w h : ℚ) :
    gridAligned (findSlotBelow occ pr w h).x := by
  simp only [findSlotBelow]
  cases hgo : findSlotBelowGo occ (toRow (pr.y + pr.h) + gapCells)
      (max 1 (jsCeil ((w + PADDING) / GRID))) (max 1 (jsCeil ((h + PADDING) / GRID)))
      (toCol (pr.x + pr.w / 2) - max 1 (jsCeil ((w + PADDING) / GRID)) / 2) 500 0 with
  | some s =>
      simp only [hgo, Option.getD_some, Option.getD_none]
      exact findSlotBelowGo_x_aligned occ _ _ _ _ 500 0 s hgo
  | none =>
      simp only [hgo, Option.getD_some, Option.getD_none]
      exact gridAligned_snap _

theorem findSlotDownGo_x_aligned (occ : List GridRect) (c sx sy : ℤ) :
    ∀ (fuel : ℕ) (row : ℤ) (s : Slot),
      findSlotDownGo occ c sx sy fuel row = some s → gridAligned s.x := by
  intro fuel row s h
  rw [findSlotDownGo_x occ c sx sy fuel row s h]
  exact gridAligned_snap _

theorem findSlotBelowAtCenter_x_aligned (occ : List GridRect) (cx : ℚ)
    (pr : Rect) (w h : ℚ) : gridAligned (findSlotBelowAtCenter occ cx pr w h).x := by
  simp only [findSlotBelowAtCenter]
  cases hgo : findSlotDownGo occ (max leftEdgeCol (toCol (cx - w / 2)))
      (max 1 (jsCeil ((w + PADDING) / GRID))) (max 1 (jsCeil ((h + PADDING) / GRID)))
      1000 (toRow (pr.y + pr.h) + gapCells) with
  | some s =>
      simp only [hgo, Option.getD_some, Option.getD_none]
      exact findSlotDownGo_x_aligned occ _ _ _ 1000 _ s hgo
  | none =>
      simp only [hgo, Option.getD_some, Option.getD_none]
      exact findSlotBelow_x_aligned occ pr w h

theorem findSlotBelowAtX_x_aligned (occ : List GridRect) (tx : ℚ)
    (pr : Rect) (w h : ℚ) : gridAligned (findSlotBelowAtX occ tx pr w h).x := by
  simp only [findSlotBelowAtX]
  cases hgo : findSlotDownGo occ (max leftEdgeCol (toCol tx))
      (max 1 (jsCeil ((w + PADDING) / GRID))) (max 1 (jsCeil ((h + PADDING) / GRID)))
      1000 (toRow (pr.y + pr.h) + gapCells) with
  | some s =>
      simp only [hgo, Option.getD_some, Option.getD_none]
      exact findSlotDownGo_x_aligned occ _ _ _ 1000 _ s hgo
  | none =>
      simp only [hgo, Option.getD_some, Option.getD_none]
      exact findSlotBelow_x_aligned occ pr w h

theorem choosePlacement_x_aligned (msgs : List Msg) (getRect : Msg → Rect)
    (pr : Rect) (w h : ℚ) (excl : List String) (ps : Option Side) :
    gridAligned (choosePlacement msgs getRect pr w h excl ps).x := by
  simp only [choosePlacement]
  cases hgo : findSideSlotOnRow (buildOccupancy msgs getRect excl) pr w h ps with
  | some s =>
      simp only [hgo, Option.getD_some, Option.getD_none]
      exact findSideSlotOnRow_x_aligned _ pr w h ps s hgo
  | none =>
      simp only [hgo, Option.getD_some, Option.getD_none]
      exact findSlotBelow_x_aligned _ pr w h

theorem stackBelowAtX_x_aligned (sizes : Sizes) (next : List Msg)
    (tx : ℚ) (pr : Rect) (w h : ℚ) (excl : String) :
    gridAligned (stackBelowAtX sizes next tx pr w h excl).1 :=
  gridAligned_snap _

theorem placeThreadChild_x_aligned (sizes : Sizes) (orig next : List Msg)
    (m : Msg) (pid : String) (pr : Rect) (w h : ℚ) :
    gridAligned (placeThreadChild sizes orig next m pid pr w h).1 := by
  simp only [placeThreadChild]
  split
  · split
    · exact stackBelowAtX_x_aligned ..
    · split <;> split
      · exact findSlotBelowAtX_x_aligned ..
      · exact choosePlacement_x_aligned ..
      · exact findSlotBelowAtX_x_aligned ..
      · exact choosePlacement_x_aligned ..
  · exact stackBelowAtX_x_aligned ..

theorem placeRootXY_aligned (sizes : Sizes) (next : List Msg)
    (stageW w : ℚ) :
    gridAligned (placeRootXY sizes next stageW w).1 ∧
    gridAligned (placeRootXY sizes next stageW w).2 := by
  simp only [placeRootXY]
  split
  · exact ⟨gridAligned_snap _, gridAligned_snap _⟩
  · exact ⟨gridAligned_snap _, gridAligned_clampY _⟩

/-- Every step of the pass either leaves the state unchanged or overwrites
one slot of the working list with a message whose fresh coordinates are
grid-aligned. -/
theorem processOne_cases (sizes : Sizes) (orig : List Msg) (stageW : ℚ)
    (st : PassState) (i : ℕ) :
    processOne sizes orig stageW st i = st ∨
    ∃ m' : Msg, (processOne sizes orig stageW st i).next = st.next.set i m' ∧
      (∃ qx, m'.x = some qx ∧ gridAligned qx) ∧
      (∃ qy, m'.y = some qy ∧ gridAligned qy) := by
  simp only [processOne]
  split
  · exact Or.inl rfl
  · split
    · exact Or.inl rfl
    · split
      · exact Or.inl rfl
      · split
        · split
          · exact Or.inl rfl
          · split
            · exact Or.inl rfl
            · split
              · exact Or.inr ⟨_, rfl,
                  ⟨_, rfl, placeThreadChild_x_aligned ..⟩,
                  ⟨_, rfl, gridAligned_clampY _⟩⟩
              · exact Or.inr ⟨_, rfl,
                  ⟨_, rfl, findSlotBelowAtCenter_x_aligned ..⟩,
                  ⟨_, rfl, gridAligned_clampY _⟩⟩
        · exact Or.inr ⟨_, rfl,
            ⟨_, rfl, (placeRootXY_aligned ..).1⟩,
            ⟨_, rfl, (placeRootXY_aligned ..).2⟩⟩

theorem processOne_aligned (sizes : Sizes) (orig : List Msg) (stageW : ℚ)
    (st : PassState) (i : ℕ)
    (h : ∀ m ∈ st.next, placedAligned m) :
    ∀ m' ∈ (processOne sizes orig stageW st i).next, placedAligned m' := by
  rcases processOne_cases sizes orig stageW st i with heq |
    ⟨m', hnext, ⟨qx, hqx, hax⟩, ⟨qy, hqy, hay⟩⟩
  · rw [heq]
    exact h
  · rw [hnext]
    intro m'' hm''
    rcases List.mem_or_eq_of_mem_set hm'' with hmem | heqm
    · exact h _ hmem
    · intro _
      rw [heqm, hqx, hqy]
      exact ⟨hax, hay⟩

theorem passGo_aligned (sizes : Sizes) (orig : List Msg) (stageW : ℚ) :
    ∀ (fuel i : ℕ) (st : PassState),
      (∀ m ∈ st.next, placedAligned m) →
      ∀ m' ∈ (passGo sizes orig stageW fuel i st).next, placedAligned m' := by
  intro fuel
  induction fuel with
  | zero => intro i st h; exact h
  | succ fuel ih =>
      intro i st h
      rw [passGo]
      split
      · exact ih (i + 1) _ (processOne_aligned sizes orig stageW st i h)
      · exact h

/-- C8, counterexample: a pass that runs while some already-placed message
has an off-grid coordinate (as happens during a drag) completes and
commits a list still containing that message: `odd8` keeps `x = 37`, which
is no multiple of `GRID = 20`. -/
theorem c8_counterexample :
    (placementPass sz8 [odd8, new8] 1000 [] []).changed = true ∧
    odd8 ∈ (placementPass sz8 [odd8, new8] 1000 [] []).next ∧
    odd8.x = some 37 ∧ odd8.y = some 80 ∧ ¬ gridAligned 37 := by
  refine ⟨by with_unfolding_all decide, by with_unfolding_all decide, rfl, rfl, ?_⟩
  rintro ⟨k, hk⟩
  have h1 : (37 : ℚ) = ((20 * k : ℤ) : ℚ) := by
    rw [hk]
    push_cast [GRID]
    ring
  have h2 : (37 : ℤ) = 20 * k := by exact_mod_cast h1
  omega

/-- C8, amended: the resolver output has every placed coordinate
grid-aligned unconditionally, and the placement pass preserves the
alignment of every placed coordinate — all coordinates it assigns are
grid-aligned, and already-placed messages are untouched (so alignment can
only be claimed for them when they were aligned on entry, which a manual
drag in progress violates). -/
theorem c8_grid_alignment (getRect : Msg → Rect) (stageW : ℚ)
    (msgs : List Msg) (sizes : Sizes) (orig : List Msg) (stageW2 : ℚ)
    (rc : List (String × ℚ)) (mt : List (String × String))
    (h : ∀ m ∈ orig, placedAligned m) :
    (∀ m ∈ resolveOverlaps getRect stageW msgs, placedAligned m) ∧
    (∀ m ∈ (placementPass sizes orig stageW2 rc mt).next, placedAligned m) := by
  constructor
  · intro m hm
    obtain ⟨m0, _, hm0⟩ := List.mem_map.1 hm
    rw [← hm0]
    unfold normalizeMsg
    split
    · next hnull =>
        intro hsome
        exfalso
        cases hx0 : m0.x <;> cases hy0 : m0.y <;> simp_all
    · intro _
      exact ⟨gridAligned_snap _, gridAligned_clampY _⟩
  · simp only [placementPass]
    split
    · intro m hm
      exact passGo_aligned sizes orig stageW2 orig.length 0 _ h m hm
    · intro m hm
      exact h m hm

/-- C8, witness: the amended theorem on a concrete aligned list. -/
theorem c8_witness :
    (∀ m ∈ resolveOverlaps (getRectFor sz2) 2000 [msgA2, msgB2],
      placedAligned m) ∧
    (∀ m ∈ (placementPass sz4 [r1fix, r2fix] 1000 [] []).next,
      placedAligned m) :=
  c8_grid_alignment (getRectFor sz2) 2000 [msgA2, msgB2] sz4 [r1fix, r2fix]
    1000 [] []
    (by
      intro m hm
      simp only [List.mem_cons, List.not_mem_nil, or_false] at hm
      rcases hm with rfl | rfl
      · intro _
        exact ⟨⟨18, by with_unfolding_all decide⟩, ⟨4, by with_unfolding_all decide⟩⟩
      · intro hs
        exact absurd hs.1 (by with_unfolding_all decide))

/-! ### C9 — the resolver only adjusts coordinates -/

theorem list_set_self {α : Type} (l : List α) (j : ℕ) (a : α)
    (h : l[j]? = some a) : l.set j a = l := by
  apply List.ext_getElem?
  intro n
  rw [List.getElem?_set]
  by_cases hn : j = n
  · subst hn
    have hlt : j < l.length := by
      by_contra hge
      rw [List.getElem?_eq_none (by omega)] at h
      cases h
    rw [if_pos rfl, if_pos hlt, h]
  · rw [if_neg hn]

theorem mem_set_of_ne {α : Type} {l : List α} {j : ℕ} {b c : α} (a : α)
    (hm : b ∈ l) (hj : l[j]? = some c) (hne : b ≠ c) : b ∈ l.set j a := by
  obtain ⟨k, hk⟩ := List.mem_iff_getElem?.1 hm
  apply List.mem_iff_getElem?.2
  refine ⟨k, ?_⟩
  rw [List.getElem?_set]
  by_cases hkj : j = k
  · subst hkj
    rw [hk] at hj
    cases hj
    exact absurd rfl hne
  · rw [if_neg hkj]
    exact hk

theorem frameEq_refl (m : Msg) : frameEq m m :=
  ⟨rfl, rfl, rfl, rfl, rfl, rfl, rfl⟩

theorem frameEq_trans {a b c : Msg} (h1 : frameEq a b) (h2 : frameEq b c) :
    frameEq a c :=
  ⟨h2.1.trans h1.1, h2.2.1.trans h1.2.1, h2.2.2.1.trans h1.2.2.1,
   h2.2.2.2.1.trans h1.2.2.2.1, h2.2.2.2.2.1.trans h1.2.2.2.2.1,
   h2.2.2.2.2.2.1.trans h1.2.2.2.2.2.1, h2.2.2.2.2.2.2.trans h1.2.2.2.2.2.2⟩

theorem isSome_of_isNone_false {α : Type} {o : Option α}
    (h : o.isNone = false) : o.isSome = true := by
  cases o
  · cases h
  · rfl

/-- The pair update only touches the coordinates of B, and only fires for
a placed B. -/
theorem resolvePair_some (getRect : Msg → Rect) (stageW : ℚ) (A B nb : Msg)
    (h : resolvePair getRect stageW A B = some nb) :
    frameEq B nb ∧ B.x.isSome ∧ B.y.isSome ∧ nb.x.isSome ∧ nb.y.isSome := by
  simp only [resolvePair] at h
  split at h
  · cases h
  · next hcond =>
      have hBx : B.x.isSome = true := by
        rcases hc : B.x with _ | v
        · rw [hc] at hcond
          simp at hcond
        · rfl
      have hBy : B.y.isSome = true := by
        rcases hc : B.y with _ | v
        · rw [hc] at hcond
          simp at hcond
        · rfl
      split at h
      · split at h
        · cases h
          exact ⟨⟨rfl, rfl, rfl, rfl, rfl, rfl, rfl⟩, hBx, hBy, hBx, rfl⟩
        · cases h
          exact ⟨⟨rfl, rfl, rfl, rfl, rfl, rfl, rfl⟩, hBx, hBy, rfl, hBy⟩
      · cases h

theorem coordMod_refl (m : Msg) : coordMod m m :=
  ⟨frameEq_refl m, fun _ => rfl⟩

theorem coordMod_of_update {m B nb : Msg} (hmB : coordMod m B)
    (hfr : frameEq B nb) (hBx : B.x.isSome = true) (hBy : B.y.isSome = true) :
    coordMod m nb := by
  refine ⟨frameEq_trans hmB.1 hfr, ?_⟩
  intro hnull
  exfalso
  have hBm := hmB.2 hnull
  rcases hnull with hx | hy
  · rw [hBm, hx] at hBx
    cases hBx
  · rw [hBm, hy] at hBy
    cases hBy

theorem resolveInv_refl (msgs : List Msg) : ResolveInv msgs msgs :=
  ⟨fun m' hm' => ⟨m', hm', coordMod_refl m'⟩, List.Perm.refl _,
   fun _ hm _ => hm⟩

theorem resolveInv_sort (msgs l : List Msg) (h : ResolveInv msgs l) :
    ResolveInv msgs (sortByYX l) := by
  have hperm : (sortByYX l).Perm l := List.mergeSort_perm l _
  exact ⟨fun m' hm' => h.1 m' (hperm.mem_iff.1 hm'),
    (hperm.map Msg.id).trans h.2.1,
    fun m hm hnull => hperm.mem_iff.2 (h.2.2 m hm hnull)⟩

theorem resolveInv_set (getRect : Msg → Rect) (stageW : ℚ)
    (msgs l : List Msg) (j : ℕ) (A B nb : Msg) (h : ResolveInv msgs l)
    (hj : l[j]? = some B) (hp : resolvePair getRect stageW A B = some nb) :
    ResolveInv msgs (l.set j nb) := by
  obtain ⟨hfr, hBx, hBy, _, _⟩ := resolvePair_some getRect stageW A B nb hp
  refine ⟨?_, ?_, ?_⟩
  · intro m' hm'
    rcases List.mem_or_eq_of_mem_set hm' with hmem | heq
    · exact h.1 m' hmem
    · obtain ⟨m0, hm0, hcm⟩ := h.1 B (mem_of_idx hj)
      exact ⟨m0, hm0, heq ▸ coordMod_of_update hcm hfr hBx hBy⟩
  · have hmap : (l.set j nb).map Msg.id = l.map Msg.id := by
      rw [List.map_set]
      apply list_set_self
      rw [List.getElem?_map, hj]
      rw [hfr.1]
      rfl
    rw [hmap]
    exact h.2.1
  · intro m hm hnull
    refine mem_set_of_ne nb (h.2.2 m hm hnull) hj ?_
    intro heq
    rcases hnull with hx | hy
    · rw [← heq, hx] at hBx
      cases hBx
    · rw [← heq, hy] at hBy
      cases hBy

theorem resolveInner_inv (getRect : Msg → Rect) (stageW : ℚ) (msgs : List Msg)
    (i : ℕ) :
    ∀ (fuel j : ℕ) (l : List Msg) (ch : Bool), ResolveInv msgs l →
      ResolveInv msgs (resolveInner getRect stageW i fuel j l ch).1 := by
  intro fuel
  induction fuel with
  | zero => intro j l ch h; exact h
  | succ fuel ih =>
      intro j l ch h
      rw [resolveInner]
      split
      · cases hA : l[i]? with
        | none =>
            simp only [hA]
            exact ih (j + 1) l ch h
        | some A =>
            cases hB : l[j]? with
            | none =>
                simp only [hA, hB]
                exact ih (j + 1) l ch h
            | some B =>
                simp only [hA, hB]
                cases hp : resolvePair getRect stageW A B with
                | none =>
                    simp only [hp]
                    exact ih (j + 1) l ch h
                | some nb =>
                    simp only [hp]
                    exact ih (j + 1) (l.set j nb) true
                      (resolveInv_set getRect stageW msgs l j A B nb h hB hp)
      · exact h

theorem resolveOuter_inv (getRect : Msg → Rect) (stageW : ℚ) (msgs : List Msg) :
    ∀ (fuel i : ℕ) (l : List Msg) (ch : Bool), ResolveInv msgs l →
      ResolveInv msgs (resolveOuter getRect stageW fuel i l ch).1 := by
  intro fuel
  induction fuel with
  | zero => intro i l ch h; exact h
  | succ fuel ih =>
      intro i l ch h
      rw [resolveOuter]
      split
      · exact ih (i + 1) _ _
          (resolveInner_inv getRect stageW msgs i l.length (i + 1) l ch h)
      · exact h

theorem resolvePasses_inv (getRect : Msg → Rect) (stageW : ℚ) (msgs : List Msg) :
    ∀ (fuel : ℕ) (l : List Msg), ResolveInv msgs l →
      ResolveInv msgs (resolvePasses getRect stageW fuel l) := by
  intro fuel
  induction fuel with
  | zero => intro l h; exact h
  | succ fuel ih =>
      intro l h
      rw [resolvePasses]
      have hpass : ResolveInv msgs (resolvePass getRect stageW l).1 :=
        resolveOuter_inv getRect stageW msgs (sortByYX l).length 0
          (sortByYX l) false (resolveInv_sort msgs l h)
      split
      · exact ih _ hpass
      · exact hpass

theorem normalizeMsg_id (m : Msg) : (normalizeMsg m).id = m.id := by
  unfold normalizeMsg
  split
  · rfl
  · rfl

theorem normalizeMsg_frame (m : Msg) : frameEq m (normalizeMsg m) := by
  unfold normalizeMsg
  split
  · exact frameEq_refl m
  · exact ⟨rfl, rfl, rfl, rfl, rfl, rfl, rfl⟩

theorem normalizeMsg_null (m : Msg) (h : m.x = none ∨ m.y = none) :
    normalizeMsg m = m := by
  unfold normalizeMsg
  rw [if_pos]
  rcases h with hx | hy
  · rw [hx]
    rfl
  · rw [hy]
    simp

/-- C9: `resolveOverlaps` only adjusts coordinates — it returns a list of
the same length carrying the same multiset of message ids, every output
message agrees with some input message on every field other than `x` and
`y`, and every input message with a null coordinate is returned entirely
unchanged (it is still an element of the output). -/
theorem c9_frame_effect (getRect : Msg → Rect) (stageW : ℚ)
    (msgs : List Msg) :
    (resolveOverlaps getRect stageW msgs).length = msgs.length ∧
    ((resolveOverlaps getRect stageW msgs).map Msg.id).Perm
      (msgs.map Msg.id) ∧
    (∀ m' ∈ resolveOverlaps getRect stageW msgs, ∃ m ∈ msgs, frameEq m m') ∧
    (∀ m ∈ msgs, (m.x = none ∨ m.y = none) →
      m ∈ resolveOverlaps getRect stageW msgs) := by
  have hinv : ResolveInv msgs
      (resolvePasses getRect stageW MAX_RESOLVE_PASSES msgs) :=
    resolvePasses_inv getRect stageW msgs MAX_RESOLVE_PASSES msgs
      (resolveInv_refl msgs)
  set inner := resolvePasses getRect stageW MAX_RESOLVE_PASSES msgs with hin
  have hids : (inner.map Msg.id).Perm (msgs.map Msg.id) := hinv.2.1
  have hout_ids : ((inner.map normalizeMsg).map Msg.id) = inner.map Msg.id := by
    rw [List.map_map]
    exact List.map_congr_left fun m _ => normalizeMsg_id m
  refine ⟨?_, ?_, ?_, ?_⟩
  · have h1 : (inner.map normalizeMsg).length = inner.length :=
      List.length_map _ _
    have h2 : inner.length = msgs.length := by
      have := hids.length_eq
      rwa [List.length_map, List.length_map] at this
    rw [resolveOverlaps, ← hin]
    rw [h1, h2]
  · rw [resolveOverlaps, ← hin, hout_ids]
    exact hids
  · intro m' hm'
    rw [resolveOverlaps, ← hin] at hm'
    obtain ⟨m0, hm0, hnm⟩ := List.mem_map.1 hm'
    obtain ⟨m, hm, hcm⟩ := hinv.1 m0 hm0
    exact ⟨m, hm, hnm ▸ frameEq_trans hcm.1 (normalizeMsg_frame m0)⟩
  · intro m hm hnull
    rw [resolveOverlaps, ← hin]
    have hmem : m ∈ inner := hinv.2.2 m hm hnull
    have : normalizeMsg m = m := normalizeMsg_null m hnull
    exact this ▸ List.mem_map_of_mem normalizeMsg hmem

/-- C9, witness: the frame property at a concrete three-message list with
one unplaced message. -/
theorem c9_witness :
    (resolveOverlaps (getRectFor sz2) 2000 msgs9).length = msgs9.length ∧
    msgU9 ∈ resolveOverlaps (getRectFor sz2) 2000 msgs9 :=
  ⟨(c9_frame_effect (getRectFor sz2) 2000 msgs9).1,
   (c9_frame_effect (getRectFor sz2) 2000 msgs9).2.2.2 msgU9
     (by with_unfolding_all decide) (Or.inl rfl)⟩

end ChatCanvasProofs
